import Mathlib

/-!
Shallow embedding of the Cola supply-chain simulation (src/Cola.py).

The core is `simulate_week` together with its nested helper
`split_into_skus`, plus the run loop that threads inventory across weeks.
Python integer quantities are modelled as `ℤ`; exact quotients
(`/` on numbers, producing floats in Python) are modelled as `ℚ`.
`int(x)` applied to a nonnegative-denominator quotient of integers is
truncation toward zero, i.e. `Int.tdiv`; `math.floor(a / b)` and the
Python floor division `//` are `Int.fdiv`; Python `round` is
round-half-to-even, modelled exactly on `ℚ` by `roundHalfEven`.
-/

/-- The four (DC, SKU) keys used throughout `Cola.py`. -/
inductive Key where
  | North_Regular
  | North_Diet
  | South_Regular
  | South_Diet
deriving DecidableEq, Repr, Fintype

/-- One demand row of the uploaded CSV: a week identifier and the four
demand quantities (columns `North_Regular`, `North_Diet`, `South_Regular`,
`South_Diet`). -/
structure Row where
  Week : ℤ
  North_Regular : ℤ
  North_Diet : ℤ
  South_Regular : ℤ
  South_Diet : ℤ
deriving Repr

/-- The three sidebar configuration scalars (`PLANT_CAPACITY`,
`TRUCK_SIZE`, `SAFETY_STOCK`), globals in `Cola.py`. -/
structure Config where
  PLANT_CAPACITY : ℤ
  TRUCK_SIZE : ℤ
  SAFETY_STOCK : ℤ
deriving Repr

/-- The `demand` dict built at the top of `simulate_week` from the row. -/
def demandOf (row : Row) : Key → ℤ
  | .North_Regular => row.North_Regular
  | .North_Diet => row.North_Diet
  | .South_Regular => row.South_Regular
  | .South_Diet => row.South_Diet

/-- `sum(d.values())` over a four-key dict. -/
def sumKeys (f : Key → ℤ) : ℤ :=
  f .North_Regular + f .North_Diet + f .South_Regular + f .South_Diet

/-- Inventory dict: a key may be absent (Python `dict.get(k, default)`). -/
def InvState : Type := Key → Option ℤ

/-- Step 1 of `simulate_week`:
`required = {k: max(0, demand[k] + SAFETY_STOCK - starting_inv.get(k, SAFETY_STOCK))}`. -/
def required (cfg : Config) (row : Row) (inv : InvState) (k : Key) : ℤ :=
  max 0 (demandOf row k + cfg.SAFETY_STOCK - (inv k).getD cfg.SAFETY_STOCK)

/-- `total_required = sum(required.values())`. -/
def total_required (cfg : Config) (row : Row) (inv : InvState) : ℤ :=
  sumKeys (required cfg row inv)

/-- Step 2 of `simulate_week`: proportional scaling when capacity is
exceeded, `alloc = {k: int(required[k] * capacity / total_required)}`;
Python `int` on the quotient truncates toward zero (`Int.tdiv`). -/
def alloc (cfg : Config) (row : Row) (inv : InvState) (k : Key) : ℤ :=
  if total_required cfg row inv > cfg.PLANT_CAPACITY then
    Int.tdiv (required cfg row inv k * cfg.PLANT_CAPACITY) (total_required cfg row inv)
  else
    required cfg row inv k

/-- Python `round` with no digits argument: round half to even, modelled
exactly on `ℚ`. -/
def roundHalfEven (q : ℚ) : ℤ :=
  if q - ⌊q⌋ < 1/2 then ⌊q⌋
  else if q - ⌊q⌋ > 1/2 then ⌊q⌋ + 1
  else if ⌊q⌋ % 2 = 0 then ⌊q⌋ else ⌊q⌋ + 1

/-- The proportional Regular share computed inside `split_into_skus`:
`req_reg / (req_reg + req_diet) if (req_reg + req_diet) > 0 else 0.5`. -/
def regShare (req_reg req_diet : ℤ) : ℚ :=
  if req_reg + req_diet > 0 then (req_reg : ℚ) / ((req_reg : ℚ) + (req_diet : ℚ)) else 1/2

/-- The helper `split_into_skus(req_reg, req_diet, truck_total)` nested in
`simulate_week`: proportional split, rounding to a multiple of 1000,
sign corrections, then the final floor-to-1000 of Regular with Diet as the
exact remainder. Python `//` is `Int.fdiv`. -/
def split_into_skus (req_reg req_diet truck_total : ℤ) : ℤ × ℤ :=
  if truck_total = 0 then (0, 0)
  else
    let reg_share : ℚ := regShare req_reg req_diet
    let reg_alloc : ℤ := roundHalfEven (reg_share * (truck_total : ℚ) / 1000) * 1000
    let diet_alloc : ℤ := truck_total - reg_alloc
    let p1 : ℤ × ℤ := if diet_alloc < 0 then (truck_total, 0) else (reg_alloc, diet_alloc)
    let p2 : ℤ × ℤ := if p1.1 < 0 then (0, truck_total) else p1
    let reg_final : ℤ := Int.fdiv p2.1 1000 * 1000
    (reg_final, truck_total - reg_final)

/-- Step 3 of `simulate_week`: `north_total = alloc["North_Regular"] + alloc["North_Diet"]`. -/
def north_total (cfg : Config) (row : Row) (inv : InvState) : ℤ :=
  alloc cfg row inv .North_Regular + alloc cfg row inv .North_Diet

/-- `south_total = alloc["South_Regular"] + alloc["South_Diet"]`. -/
def south_total (cfg : Config) (row : Row) (inv : InvState) : ℤ :=
  alloc cfg row inv .South_Regular + alloc cfg row inv .South_Diet

/-- `north_truck_total = math.floor(north_total / TRUCK_SIZE) * TRUCK_SIZE`. -/
def north_truck_total (cfg : Config) (row : Row) (inv : InvState) : ℤ :=
  Int.fdiv (north_total cfg row inv) cfg.TRUCK_SIZE * cfg.TRUCK_SIZE

/-- `south_truck_total = math.floor(south_total / TRUCK_SIZE) * TRUCK_SIZE`. -/
def south_truck_total (cfg : Config) (row : Row) (inv : InvState) : ℤ :=
  Int.fdiv (south_total cfg row inv) cfg.TRUCK_SIZE * cfg.TRUCK_SIZE

/-- Step 4 of `simulate_week`: the `alloc_truck` dict assembled from the
two `split_into_skus` calls. -/
def alloc_truck (cfg : Config) (row : Row) (inv : InvState) (k : Key) : ℤ :=
  let n := split_into_skus (alloc cfg row inv .North_Regular) (alloc cfg row inv .North_Diet)
             (north_truck_total cfg row inv)
  let s := split_into_skus (alloc cfg row inv .South_Regular) (alloc cfg row inv .South_Diet)
             (south_truck_total cfg row inv)
  match k with
  | .North_Regular => n.1
  | .North_Diet => n.2
  | .South_Regular => s.1
  | .South_Diet => s.2

/-- Step 5 of `simulate_week`:
`ending_inv = {k: max(0, starting_inv.get(k, SAFETY_STOCK) + alloc_truck[k] - demand[k])}`. -/
def ending_inv (cfg : Config) (row : Row) (inv : InvState) (k : Key) : ℤ :=
  max 0 ((inv k).getD cfg.SAFETY_STOCK + alloc_truck cfg row inv k - demandOf row k)

/-- Step 6 of `simulate_week`: `fulfilled = {k: min(demand[k], alloc_truck[k])}`. -/
def fulfilled (cfg : Config) (row : Row) (inv : InvState) (k : Key) : ℤ :=
  min (demandOf row k) (alloc_truck cfg row inv k)

/-- `fulfillment_pct = sum(fulfilled.values()) / sum(demand.values()) * 100`
(an unguarded true division in the code). -/
def fulfillment_pct (cfg : Config) (row : Row) (inv : InvState) : ℚ :=
  (sumKeys (fulfilled cfg row inv) : ℚ) / (sumKeys (demandOf row) : ℚ) * 100

/-- The tuple returned by `simulate_week`. -/
def simulate_week (cfg : Config) (row : Row) (inv : InvState) :
    (Key → ℤ) × (Key → ℤ) × (Key → ℤ) × ℚ × ℤ :=
  (alloc_truck cfg row inv, ending_inv cfg row inv, fulfilled cfg row inv,
   fulfillment_pct cfg row inv, total_required cfg row inv)

/-- Python `round(x, 2)`: round half to even at two decimal places. -/
def round2 (q : ℚ) : ℚ := (roundHalfEven (q * 100) : ℚ) / 100

/-- One appended result record of the run loop. -/
structure WeekResult where
  Week : ℤ
  shipments : Key → ℤ
  Total_Production : ℤ
  Total_Demand : ℤ
  Fulfillment : ℚ
  Capacity_Utilization : ℚ
  Trucks_Used : ℚ

/-- The body of the run loop: thread inventory through `simulate_week`
week by week and append a record per week. No configuration validation is
performed anywhere in the loop. The `ℚ`-valued fields use total division,
which coincides with Python only on traces where every divisor reached
(`PLANT_CAPACITY`, `TRUCK_SIZE`, the week's total demand, and
`total_required` when rationing) is nonzero — Python raises
`ZeroDivisionError` otherwise; theorems evaluating a run therefore
establish those side conditions explicitly. -/
def runSimAux (cfg : Config) : List Row → InvState → List WeekResult
  | [], _ => []
  | row :: rest, inv =>
    let out := simulate_week cfg row inv
    let shipments := out.1
    let inventory := out.2.1
    let fulfil := out.2.2.2.1
    { Week := row.Week
      shipments := shipments
      Total_Production := sumKeys shipments
      Total_Demand := sumKeys (demandOf row)
      Fulfillment := round2 fulfil
      Capacity_Utilization := (sumKeys shipments : ℚ) / (cfg.PLANT_CAPACITY : ℚ) * 100
      Trucks_Used :=
        ((shipments .North_Regular + shipments .North_Diet : ℤ) : ℚ) / (cfg.TRUCK_SIZE : ℚ)
          + ((shipments .South_Regular + shipments .South_Diet : ℤ) : ℚ) / (cfg.TRUCK_SIZE : ℚ) }
      :: runSimAux cfg rest (fun k => some (inventory k))

/-- The run: `inventory = {k: SAFETY_STOCK for k in keys}` then the loop
over the rows of the uploaded dataframe. -/
def runSim (cfg : Config) (rows : List Row) : List WeekResult :=
  runSimAux cfg rows (fun _ => some cfg.SAFETY_STOCK)

/-! ### Concrete inputs used by witnesses and scenario theorems -/

/-- The default configuration of the sidebar: capacity 150000, truck size
10000, safety stock 5000. -/
def cfgA : Config := ⟨150000, 10000, 5000⟩

/-- Inventory holding exactly the safety stock for every key. -/
def invA : InvState := fun _ => some 5000

/-- Scenario A demand row. -/
def rowA : Row := ⟨1, 40000, 10000, 30000, 10000⟩

/-- Scenario B demand row: all four demands 50000, total required 200000. -/
def rowB : Row := ⟨1, 50000, 50000, 50000, 50000⟩

/-- A week with zero demand on every key. -/
def rowZero : Row := ⟨1, 0, 0, 0, 0⟩

/-- A configuration with non-positive (negative) plant capacity. -/
def cfgN : Config := ⟨-1, 10000, 5000⟩

/-! ### Helper lemmas about `split_into_skus` -/

/-- The first component returned by `split_into_skus` is non-negative,
with no hypotheses: both sign corrections force it above zero before the
final floor. -/
theorem split_fst_nonneg (r d tt : ℤ) : 0 ≤ (split_into_skus r d tt).1 := by
  simp only [split_into_skus]
  split
  · simp
  · have h : ∀ p : ℤ × ℤ, 0 ≤ (if p.1 < 0 then ((0 : ℤ), tt) else p).1 := by
      intro p
      split
      · simp
      · exact le_of_not_lt (by assumption)
    exact mul_nonneg (Int.fdiv_nonneg (h _) (by decide)) (by decide)

/-- The first component returned by `split_into_skus` is a multiple of
1000. -/
theorem split_fst_dvd (r d tt : ℤ) : (1000 : ℤ) ∣ (split_into_skus r d tt).1 := by
  simp only [split_into_skus]
  split
  · simp
  · exact dvd_mul_left 1000 _

/-- The two components returned by `split_into_skus` sum exactly to the
truck total. -/
theorem split_sum (r d tt : ℤ) :
    (split_into_skus r d tt).1 + (split_into_skus r d tt).2 = tt := by
  simp only [split_into_skus]
  split
  · simp only [Prod.fst, Prod.snd]
    omega
  · simp only [Prod.fst, Prod.snd]
    ring

/-- The second component is the truck total minus the first. -/
theorem split_snd_eq (r d tt : ℤ) :
    (split_into_skus r d tt).2 = tt - (split_into_skus r d tt).1 := by
  have := split_sum r d tt
  omega

/-- A zero truck total yields the pair (0, 0). -/
theorem split_zero (r d : ℤ) : split_into_skus r d 0 = (0, 0) := by
  simp [split_into_skus]

/-- For a non-negative truck total the first component never exceeds it. -/
theorem split_fst_le (r d tt : ℤ) (htt : 0 ≤ tt) : (split_into_skus r d tt).1 ≤ tt := by
  simp only [split_into_skus]
  split
  · simpa using htt
  · have hfd : ∀ p : ℤ, Int.fdiv p 1000 * 1000 ≤ p := by
      intro p
      rw [Int.fdiv_eq_ediv _ (by decide : (0 : ℤ) ≤ 1000)]
      exact Int.ediv_mul_le _ (by decide)
    have h1 : (if tt - roundHalfEven (regShare r d * (tt : ℚ) / 1000) * 1000 < 0 then
        ((tt : ℤ), (0 : ℤ)) else
        (roundHalfEven (regShare r d * (tt : ℚ) / 1000) * 1000,
          tt - roundHalfEven (regShare r d * (tt : ℚ) / 1000) * 1000)).1 ≤ tt := by
      split
      · exact le_refl tt
      · simp only
        omega
    have h2 : ∀ p : ℤ × ℤ, p.1 ≤ tt → (if p.1 < 0 then ((0 : ℤ), tt) else p).1 ≤ tt := by
      intro p hp
      split
      · simpa using htt
      · exact hp
    exact le_trans (hfd _) (h2 _ h1)

/-- For a non-negative truck total the second component is non-negative. -/
theorem split_snd_nonneg (r d tt : ℤ) (htt : 0 ≤ tt) : 0 ≤ (split_into_skus r d tt).2 := by
  have h1 := split_fst_le r d tt htt
  have h2 := split_snd_eq r d tt
  omega

/-! ### Helper lemmas about the allocation pipeline -/

theorem required_nonneg (cfg : Config) (row : Row) (inv : InvState) (k : Key) :
    0 ≤ required cfg row inv k :=
  le_max_left 0 _

theorem total_required_nonneg (cfg : Config) (row : Row) (inv : InvState) :
    0 ≤ total_required cfg row inv := by
  have h1 := required_nonneg cfg row inv .North_Regular
  have h2 := required_nonneg cfg row inv .North_Diet
  have h3 := required_nonneg cfg row inv .South_Regular
  have h4 := required_nonneg cfg row inv .South_Diet
  unfold total_required sumKeys
  omega

theorem alloc_nonneg (cfg : Config) (row : Row) (inv : InvState)
    (hcap : 0 ≤ cfg.PLANT_CAPACITY) (k : Key) : 0 ≤ alloc cfg row inv k := by
  unfold alloc
  split
  · exact Int.tdiv_nonneg (mul_nonneg (required_nonneg cfg row inv k) hcap)
      (total_required_nonneg cfg row inv)
  · exact required_nonneg cfg row inv k

theorem north_total_nonneg (cfg : Config) (row : Row) (inv : InvState)
    (hcap : 0 ≤ cfg.PLANT_CAPACITY) : 0 ≤ north_total cfg row inv := by
  have h1 := alloc_nonneg cfg row inv hcap .North_Regular
  have h2 := alloc_nonneg cfg row inv hcap .North_Diet
  unfold north_total
  omega

theorem south_total_nonneg (cfg : Config) (row : Row) (inv : InvState)
    (hcap : 0 ≤ cfg.PLANT_CAPACITY) : 0 ≤ south_total cfg row inv := by
  have h1 := alloc_nonneg cfg row inv hcap .South_Regular
  have h2 := alloc_nonneg cfg row inv hcap .South_Diet
  unfold south_total
  omega

theorem north_truck_total_nonneg (cfg : Config) (row : Row) (inv : InvState)
    (hcap : 0 ≤ cfg.PLANT_CAPACITY) (htr : 0 ≤ cfg.TRUCK_SIZE) :
    0 ≤ north_truck_total cfg row inv :=
  mul_nonneg (Int.fdiv_nonneg (north_total_nonneg cfg row inv hcap) htr) htr

theorem south_truck_total_nonneg (cfg : Config) (row : Row) (inv : InvState)
    (hcap : 0 ≤ cfg.PLANT_CAPACITY) (htr : 0 ≤ cfg.TRUCK_SIZE) :
    0 ≤ south_truck_total cfg row inv :=
  mul_nonneg (Int.fdiv_nonneg (south_total_nonneg cfg row inv hcap) htr) htr

theorem north_truck_total_le (cfg : Config) (row : Row) (inv : InvState)
    (htr : 0 < cfg.TRUCK_SIZE) : north_truck_total cfg row inv ≤ north_total cfg row inv := by
  unfold north_truck_total
  rw [Int.fdiv_eq_ediv _ (le_of_lt htr)]
  exact Int.ediv_mul_le _ (ne_of_gt htr)

theorem south_truck_total_le (cfg : Config) (row : Row) (inv : InvState)
    (htr : 0 < cfg.TRUCK_SIZE) : south_truck_total cfg row inv ≤ south_total cfg row inv := by
  unfold south_truck_total
  rw [Int.fdiv_eq_ediv _ (le_of_lt htr)]
  exact Int.ediv_mul_le _ (ne_of_gt htr)

/-- Reduction of `alloc_truck` at each key to the `split_into_skus` calls. -/
theorem alloc_truck_NR (cfg : Config) (row : Row) (inv : InvState) :
    alloc_truck cfg row inv .North_Regular
      = (split_into_skus (alloc cfg row inv .North_Regular) (alloc cfg row inv .North_Diet)
          (north_truck_total cfg row inv)).1 := rfl

theorem alloc_truck_ND (cfg : Config) (row : Row) (inv : InvState) :
    alloc_truck cfg row inv .North_Diet
      = (split_into_skus (alloc cfg row inv .North_Regular) (alloc cfg row inv .North_Diet)
          (north_truck_total cfg row inv)).2 := rfl

theorem alloc_truck_SR (cfg : Config) (row : Row) (inv : InvState) :
    alloc_truck cfg row inv .South_Regular
      = (split_into_skus (alloc cfg row inv .South_Regular) (alloc cfg row inv .South_Diet)
          (south_truck_total cfg row inv)).1 := rfl

theorem alloc_truck_SD (cfg : Config) (row : Row) (inv : InvState) :
    alloc_truck cfg row inv .South_Diet
      = (split_into_skus (alloc cfg row inv .South_Regular) (alloc cfg row inv .South_Diet)
          (south_truck_total cfg row inv)).2 := rfl

/-- The four shipments sum to the two DC truck totals. -/
theorem sum_shipments_eq (cfg : Config) (row : Row) (inv : InvState) :
    sumKeys (alloc_truck cfg row inv)
      = north_truck_total cfg row inv + south_truck_total cfg row inv := by
  have hn := split_sum (alloc cfg row inv .North_Regular) (alloc cfg row inv .North_Diet)
    (north_truck_total cfg row inv)
  have hs := split_sum (alloc cfg row inv .South_Regular) (alloc cfg row inv .South_Diet)
    (south_truck_total cfg row inv)
  unfold sumKeys
  rw [alloc_truck_NR, alloc_truck_ND, alloc_truck_SR, alloc_truck_SD]
  omega

/-- Under rationing and without, the allocated quantities sum to at most
the plant capacity. -/
theorem alloc_sum_le (cfg : Config) (row : Row) (inv : InvState)
    (hcap : 0 < cfg.PLANT_CAPACITY) :
    sumKeys (alloc cfg row inv) ≤ cfg.PLANT_CAPACITY := by
  by_cases h : total_required cfg row inv > cfg.PLANT_CAPACITY
  · have hT : 0 < total_required cfg row inv := lt_trans hcap h
    have key : ∀ k, alloc cfg row inv k
        = required cfg row inv k * cfg.PLANT_CAPACITY / total_required cfg row inv := by
      intro k
      unfold alloc
      rw [if_pos h, Int.tdiv_eq_ediv (mul_nonneg (required_nonneg cfg row inv k) (le_of_lt hcap))
        (le_of_lt hT)]
    have hle : ∀ k, alloc cfg row inv k * total_required cfg row inv
        ≤ required cfg row inv k * cfg.PLANT_CAPACITY := by
      intro k
      rw [key k]
      exact Int.ediv_mul_le _ (ne_of_gt hT)
    have h1 := hle .North_Regular
    have h2 := hle .North_Diet
    have h3 := hle .South_Regular
    have h4 := hle .South_Diet
    have hsum : required cfg row inv .North_Regular * cfg.PLANT_CAPACITY
        + required cfg row inv .North_Diet * cfg.PLANT_CAPACITY
        + required cfg row inv .South_Regular * cfg.PLANT_CAPACITY
        + required cfg row inv .South_Diet * cfg.PLANT_CAPACITY
        = total_required cfg row inv * cfg.PLANT_CAPACITY := by
      unfold total_required sumKeys
      ring
    have hmul : sumKeys (alloc cfg row inv) * total_required cfg row inv
        ≤ cfg.PLANT_CAPACITY * total_required cfg row inv := by
      unfold sumKeys
      nlinarith [h1, h2, h3, h4, hsum]
    exact le_of_mul_le_mul_right hmul hT
  · have heq : ∀ k, alloc cfg row inv k = required cfg row inv k := by
      intro k
      unfold alloc
      rw [if_neg h]
    have : sumKeys (alloc cfg row inv) = total_required cfg row inv := by
      unfold sumKeys total_required sumKeys
      rw [heq .North_Regular, heq .North_Diet, heq .South_Regular, heq .South_Diet]
    omega

/-! ### Projections of the `simulate_week` return tuple -/

theorem simulate_week_fst (cfg : Config) (row : Row) (inv : InvState) :
    (simulate_week cfg row inv).1 = alloc_truck cfg row inv := rfl

theorem simulate_week_ending (cfg : Config) (row : Row) (inv : InvState) :
    (simulate_week cfg row inv).2.1 = ending_inv cfg row inv := rfl

theorem simulate_week_fulfilled (cfg : Config) (row : Row) (inv : InvState) :
    (simulate_week cfg row inv).2.2.1 = fulfilled cfg row inv := rfl

theorem simulate_week_pct (cfg : Config) (row : Row) (inv : InvState) :
    (simulate_week cfg row inv).2.2.2.1 = fulfillment_pct cfg row inv := rfl

/-- Integer Euclidean division by a positive integer is the floor of the
exact rational quotient. -/
theorem int_ediv_eq_rat_floor (a b : ℤ) (hb : 0 < b) : a / b = ⌊(a : ℚ) / (b : ℚ)⌋ := by
  have h1 : ((b.toNat : ℕ) : ℤ) = b := Int.toNat_of_nonneg (le_of_lt hb)
  have h2 : ((b.toNat : ℕ) : ℚ) = (b : ℚ) := by exact_mod_cast h1
  rw [← h2, Rat.floor_intCast_div_natCast, h1]

/-! ### Claim theorems -/

/-- C1: for every week processed with a positive plant capacity, positive
truck size, and non-negative demands and starting inventory, the sum of the
four shipment quantities returned by `simulate_week` (the `alloc_truck`
dict) is at most `plant_capacity`. -/
theorem C1_total_shipments_le_capacity (cfg : Config) (row : Row) (inv : InvState)
    (hcap : 0 < cfg.PLANT_CAPACITY) (htr : 0 < cfg.TRUCK_SIZE)
    (hd : ∀ k, 0 ≤ demandOf row k) (hinv : ∀ k v, inv k = some v → 0 ≤ v) :
    sumKeys ((simulate_week cfg row inv).1) ≤ cfg.PLANT_CAPACITY := by
  rw [simulate_week_fst]
  have h := sum_shipments_eq cfg row inv
  have hn := north_truck_total_le cfg row inv htr
  have hs := south_truck_total_le cfg row inv htr
  have ha := alloc_sum_le cfg row inv hcap
  have hnt : north_total cfg row inv + south_total cfg row inv = sumKeys (alloc cfg row inv) := by
    unfold north_total south_total sumKeys
    ring
  omega

/-- Witness for C1 at Scenario A inputs. -/
theorem C1_witness :
    (0 : ℤ) < cfgA.PLANT_CAPACITY ∧ (0 : ℤ) < cfgA.TRUCK_SIZE
    ∧ (∀ k, 0 ≤ demandOf rowA k) ∧ (∀ k v, invA k = some v → 0 ≤ v)
    ∧ sumKeys ((simulate_week cfgA rowA invA).1) ≤ cfgA.PLANT_CAPACITY :=
  ⟨by decide, by decide, by decide,
   fun k v h => by simp only [invA, Option.some.injEq] at h; omega,
   C1_total_shipments_le_capacity cfgA rowA invA (by decide) (by decide) (by decide)
     (fun k v h => by simp only [invA, Option.some.injEq] at h; omega)⟩

/-- C2: for every DC in every week, the SKU re-split of the DC's
truck-quantized total returns (0, 0) on a zero truck total; the Regular
share defaults to 1/2 when both pre-quantization allocations are zero; the
final Regular shipment is a non-negative multiple of 1000; and the Diet
shipment is the exact remainder, so the pair sums to the truck total. -/
theorem C2_sku_resplit_properties (cfg : Config) (row : Row) (inv : InvState) :
    (north_truck_total cfg row inv = 0 →
      alloc_truck cfg row inv .North_Regular = 0 ∧ alloc_truck cfg row inv .North_Diet = 0)
    ∧ (south_truck_total cfg row inv = 0 →
      alloc_truck cfg row inv .South_Regular = 0 ∧ alloc_truck cfg row inv .South_Diet = 0)
    ∧ regShare 0 0 = 1/2
    ∧ (0 ≤ alloc_truck cfg row inv .North_Regular
        ∧ (1000 : ℤ) ∣ alloc_truck cfg row inv .North_Regular)
    ∧ (0 ≤ alloc_truck cfg row inv .South_Regular
        ∧ (1000 : ℤ) ∣ alloc_truck cfg row inv .South_Regular)
    ∧ alloc_truck cfg row inv .North_Diet
        = north_truck_total cfg row inv - alloc_truck cfg row inv .North_Regular
    ∧ alloc_truck cfg row inv .South_Diet
        = south_truck_total cfg row inv - alloc_truck cfg row inv .South_Regular
    ∧ alloc_truck cfg row inv .North_Regular + alloc_truck cfg row inv .North_Diet
        = north_truck_total cfg row inv
    ∧ alloc_truck cfg row inv .South_Regular + alloc_truck cfg row inv .South_Diet
        = south_truck_total cfg row inv := by
  refine ⟨?_, ?_, by norm_num [regShare], ⟨?_, ?_⟩, ⟨?_, ?_⟩, ?_, ?_, ?_, ?_⟩
  · intro h
    rw [alloc_truck_NR, alloc_truck_ND, h, split_zero]
    exact ⟨rfl, rfl⟩
  · intro h
    rw [alloc_truck_SR, alloc_truck_SD, h, split_zero]
    exact ⟨rfl, rfl⟩
  · rw [alloc_truck_NR]; exact split_fst_nonneg _ _ _
  · rw [alloc_truck_NR]; exact split_fst_dvd _ _ _
  · rw [alloc_truck_SR]; exact split_fst_nonneg _ _ _
  · rw [alloc_truck_SR]; exact split_fst_dvd _ _ _
  · rw [alloc_truck_ND, alloc_truck_NR]; exact split_snd_eq _ _ _
  · rw [alloc_truck_SD, alloc_truck_SR]; exact split_snd_eq _ _ _
  · rw [alloc_truck_NR, alloc_truck_ND]; exact split_sum _ _ _
  · rw [alloc_truck_SR, alloc_truck_SD]; exact split_sum _ _ _

/-- Witness for C2 at Scenario A inputs, discharging the zero-truck-total
implications via a second input whose truck totals are zero. -/
theorem C2_witness :
    north_truck_total cfgA rowZero invA = 0
    ∧ alloc_truck cfgA rowZero invA .North_Regular = 0
    ∧ alloc_truck cfgA rowZero invA .North_Diet = 0 :=
  ⟨by decide, ((C2_sku_resplit_properties cfgA rowZero invA).1 (by decide)).1,
   ((C2_sku_resplit_properties cfgA rowZero invA).1 (by decide)).2⟩

/-- C3: under rationing each key's allocation is the floor of the exact
rational `required * capacity / total_required`; within capacity the
allocation is the requirement unchanged. -/
theorem C3_proportional_rationing_floor (cfg : Config) (row : Row) (inv : InvState)
    (hcap : 0 ≤ cfg.PLANT_CAPACITY) :
    (cfg.PLANT_CAPACITY < total_required cfg row inv →
      ∀ k, alloc cfg row inv k
        = ⌊((required cfg row inv k * cfg.PLANT_CAPACITY : ℤ) : ℚ)
            / ((total_required cfg row inv : ℤ) : ℚ)⌋)
    ∧ (total_required cfg row inv ≤ cfg.PLANT_CAPACITY →
      ∀ k, alloc cfg row inv k = required cfg row inv k) := by
  constructor
  · intro h k
    have hT : 0 < total_required cfg row inv := lt_of_le_of_lt hcap h
    unfold alloc
    rw [if_pos h,
      Int.tdiv_eq_ediv (mul_nonneg (required_nonneg cfg row inv k) hcap) (le_of_lt hT)]
    exact int_ediv_eq_rat_floor _ _ hT
  · intro h k
    unfold alloc
    rw [if_neg (not_lt.mpr h)]

/-- Witness for C3 at the over-capacity Scenario B inputs. -/
theorem C3_witness :
    (0 : ℤ) ≤ cfgA.PLANT_CAPACITY
    ∧ cfgA.PLANT_CAPACITY < total_required cfgA rowB invA
    ∧ alloc cfgA rowB invA .North_Regular
        = ⌊((required cfgA rowB invA .North_Regular * cfgA.PLANT_CAPACITY : ℤ) : ℚ)
            / ((total_required cfgA rowB invA : ℤ) : ℚ)⌋ :=
  ⟨by decide, by decide,
   (C3_proportional_rationing_floor cfgA rowB invA (by decide)).1 (by decide) .North_Regular⟩

/-- C4: in every week the total shipped to each DC is the DC's summed
allocation floored to the nearest multiple of `TRUCK_SIZE`; it is
non-negative and a multiple of `TRUCK_SIZE`. -/
theorem C4_dc_truck_quantization (cfg : Config) (row : Row) (inv : InvState)
    (hcap : 0 < cfg.PLANT_CAPACITY) (htr : 0 < cfg.TRUCK_SIZE) :
    ((simulate_week cfg row inv).1 .North_Regular + (simulate_week cfg row inv).1 .North_Diet
        = Int.fdiv (north_total cfg row inv) cfg.TRUCK_SIZE * cfg.TRUCK_SIZE
      ∧ 0 ≤ (simulate_week cfg row inv).1 .North_Regular
          + (simulate_week cfg row inv).1 .North_Diet
      ∧ cfg.TRUCK_SIZE ∣ ((simulate_week cfg row inv).1 .North_Regular
          + (simulate_week cfg row inv).1 .North_Diet))
    ∧ ((simulate_week cfg row inv).1 .South_Regular + (simulate_week cfg row inv).1 .South_Diet
        = Int.fdiv (south_total cfg row inv) cfg.TRUCK_SIZE * cfg.TRUCK_SIZE
      ∧ 0 ≤ (simulate_week cfg row inv).1 .South_Regular
          + (simulate_week cfg row inv).1 .South_Diet
      ∧ cfg.TRUCK_SIZE ∣ ((simulate_week cfg row inv).1 .South_Regular
          + (simulate_week cfg row inv).1 .South_Diet)) := by
  have hnsum : (simulate_week cfg row inv).1 .North_Regular
      + (simulate_week cfg row inv).1 .North_Diet = north_truck_total cfg row inv := by
    rw [simulate_week_fst, alloc_truck_NR, alloc_truck_ND]
    exact split_sum _ _ _
  have hssum : (simulate_week cfg row inv).1 .South_Regular
      + (simulate_week cfg row inv).1 .South_Diet = south_truck_total cfg row inv := by
    rw [simulate_week_fst, alloc_truck_SR, alloc_truck_SD]
    exact split_sum _ _ _
  refine ⟨⟨hnsum, ?_, ?_⟩, ⟨hssum, ?_, ?_⟩⟩
  · rw [hnsum]
    exact north_truck_total_nonneg cfg row inv (le_of_lt hcap) (le_of_lt htr)
  · rw [hnsum]
    exact dvd_mul_left _ _
  · rw [hssum]
    exact south_truck_total_nonneg cfg row inv (le_of_lt hcap) (le_of_lt htr)
  · rw [hssum]
    exact dvd_mul_left _ _

/-- Witness for C4 at Scenario A inputs. -/
theorem C4_witness :
    (0 : ℤ) < cfgA.PLANT_CAPACITY ∧ (0 : ℤ) < cfgA.TRUCK_SIZE
    ∧ cfgA.TRUCK_SIZE ∣ ((simulate_week cfgA rowA invA).1 .North_Regular
        + (simulate_week cfgA rowA invA).1 .North_Diet) :=
  ⟨by decide, by decide,
   (C4_dc_truck_quantization cfgA rowA invA (by decide) (by decide)).1.2.2⟩

/-- C5: the ending inventory returned by `simulate_week` is
`max(0, starting_inventory.get(key, safety_stock) + shipment - demand)`,
a key absent from starting inventory is treated as holding the safety
stock, and ending inventory is never negative. -/
theorem C5_inventory_update (cfg : Config) (row : Row) (inv : InvState) :
    ∀ k, (simulate_week cfg row inv).2.1 k
        = max 0 ((inv k).getD cfg.SAFETY_STOCK
            + (simulate_week cfg row inv).1 k - demandOf row k)
      ∧ (inv k = none →
          (simulate_week cfg row inv).2.1 k
            = max 0 (cfg.SAFETY_STOCK + (simulate_week cfg row inv).1 k - demandOf row k))
      ∧ 0 ≤ (simulate_week cfg row inv).2.1 k := by
  intro k
  refine ⟨rfl, ?_, le_max_left 0 _⟩
  intro h
  show ending_inv cfg row inv k = _
  unfold ending_inv
  rw [h]
  rfl

/-- An inventory state with every key absent. -/
def invNone : InvState := fun _ => none

/-- Witness for C5: a key absent from starting inventory is filled with
the safety stock. -/
theorem C5_witness :
    invNone .North_Regular = none
    ∧ (simulate_week cfgA rowA invNone).2.1 .North_Regular
        = max 0 (cfgA.SAFETY_STOCK
            + (simulate_week cfgA rowA invNone).1 .North_Regular
            - demandOf rowA .North_Regular) :=
  ⟨rfl, (C5_inventory_update cfgA rowA invNone .North_Regular).2.1 rfl⟩

/-- C6: fulfilled quantities are the minimum of demand and shipment, and
for a week with positive total demand the fulfillment percentage lies in
[0, 100]. -/
theorem C6_fulfillment_bounds (cfg : Config) (row : Row) (inv : InvState)
    (hcap : 0 ≤ cfg.PLANT_CAPACITY) (htr : 0 ≤ cfg.TRUCK_SIZE)
    (hd : ∀ k, 0 ≤ demandOf row k) (hpos : 0 < sumKeys (demandOf row)) :
    (∀ k, (simulate_week cfg row inv).2.2.1 k
        = min (demandOf row k) ((simulate_week cfg row inv).1 k))
    ∧ 0 ≤ (simulate_week cfg row inv).2.2.2.1
    ∧ (simulate_week cfg row inv).2.2.2.1 ≤ 100 := by
  have hship : ∀ k, 0 ≤ alloc_truck cfg row inv k := by
    intro k
    cases k
    · rw [alloc_truck_NR]; exact split_fst_nonneg _ _ _
    · rw [alloc_truck_ND]
      exact split_snd_nonneg _ _ _ (north_truck_total_nonneg cfg row inv hcap htr)
    · rw [alloc_truck_SR]; exact split_fst_nonneg _ _ _
    · rw [alloc_truck_SD]
      exact split_snd_nonneg _ _ _ (south_truck_total_nonneg cfg row inv hcap htr)
  have hf0 : 0 ≤ sumKeys (fulfilled cfg row inv) := by
    have h1 : ∀ k, 0 ≤ fulfilled cfg row inv k := fun k => le_min (hd k) (hship k)
    have g1 := h1 .North_Regular
    have g2 := h1 .North_Diet
    have g3 := h1 .South_Regular
    have g4 := h1 .South_Diet
    unfold sumKeys
    omega
  have hfD : sumKeys (fulfilled cfg row inv) ≤ sumKeys (demandOf row) := by
    have h1 : ∀ k, fulfilled cfg row inv k ≤ demandOf row k := fun k => min_le_left _ _
    have g1 := h1 .North_Regular
    have g2 := h1 .North_Diet
    have g3 := h1 .South_Regular
    have g4 := h1 .South_Diet
    unfold sumKeys
    omega
  refine ⟨fun k => rfl, ?_, ?_⟩
  · show (0 : ℚ) ≤ fulfillment_pct cfg row inv
    unfold fulfillment_pct
    have hF : (0 : ℚ) ≤ (sumKeys (fulfilled cfg row inv) : ℚ) := by exact_mod_cast hf0
    have hD : (0 : ℚ) ≤ (sumKeys (demandOf row) : ℚ) := by
      exact_mod_cast le_of_lt hpos
    exact mul_nonneg (div_nonneg hF hD) (by norm_num)
  · show fulfillment_pct cfg row inv ≤ 100
    unfold fulfillment_pct
    have hDpos : (0 : ℚ) < (sumKeys (demandOf row) : ℚ) := by exact_mod_cast hpos
    have hle : (sumKeys (fulfilled cfg row inv) : ℚ) ≤ (sumKeys (demandOf row) : ℚ) := by
      exact_mod_cast hfD
    have h1 : (sumKeys (fulfilled cfg row inv) : ℚ) / (sumKeys (demandOf row) : ℚ) ≤ 1 :=
      (div_le_one hDpos).mpr hle
    calc (sumKeys (fulfilled cfg row inv) : ℚ) / (sumKeys (demandOf row) : ℚ) * 100
        ≤ 1 * 100 := mul_le_mul_of_nonneg_right h1 (by norm_num)
      _ = 100 := by norm_num

/-- Witness for C6 at Scenario A inputs. -/
theorem C6_witness :
    (0 : ℤ) ≤ cfgA.PLANT_CAPACITY ∧ (0 : ℤ) ≤ cfgA.TRUCK_SIZE
    ∧ (∀ k, 0 ≤ demandOf rowA k) ∧ 0 < sumKeys (demandOf rowA)
    ∧ 0 ≤ (simulate_week cfgA rowA invA).2.2.2.1
    ∧ (simulate_week cfgA rowA invA).2.2.2.1 ≤ 100 :=
  ⟨by decide, by decide, by decide, by decide,
   (C6_fulfillment_bounds cfgA rowA invA (by decide) (by decide) (by decide) (by decide)).2.1,
   (C6_fulfillment_bounds cfgA rowA invA (by decide) (by decide) (by decide) (by decide)).2.2⟩

/-- C7: for a week whose four demands sum to zero the code still evaluates
`sum(fulfilled.values()) / sum(demand.values()) * 100` — the denominator of
the fulfillment division is zero and no sentinel branch exists, so the
Python code divides by zero instead of reporting a sentinel. -/
theorem C7_zero_demand_unguarded_division :
    sumKeys (demandOf rowZero) = 0
    ∧ (simulate_week cfgA rowZero invA).2.2.2.1
        = (sumKeys (fulfilled cfgA rowZero invA) : ℚ) / ((0 : ℤ) : ℚ) * 100 := by
  have h : sumKeys (demandOf rowZero) = 0 := by decide
  refine ⟨h, ?_⟩
  show fulfillment_pct cfgA rowZero invA = _
  unfold fulfillment_pct
  rw [h]

/-- C8: the run loop performs no configuration validation: with plant
capacity -1 (non-positive) the week is still fully processed — the
rationing branch runs and computes an allocation for every key — and a
result record is appended, instead of the run failing before any week is
processed. Every divisor Python evaluates on this trace (plant capacity,
truck size, the week's total demand, and `total_required` in the rationing
step) is nonzero, so the code raises no exception here and the `ℚ`-valued
model agrees with the program exactly. -/
theorem C8_no_failfast_on_invalid_config :
    cfgN.PLANT_CAPACITY ≤ 0
    ∧ cfgN.PLANT_CAPACITY ≠ 0
    ∧ cfgN.TRUCK_SIZE ≠ 0
    ∧ sumKeys (demandOf rowA) ≠ 0
    ∧ cfgN.PLANT_CAPACITY < total_required cfgN rowA invA
    ∧ total_required cfgN rowA invA ≠ 0
    ∧ (∀ k, alloc cfgN rowA invA k = 0)
    ∧ (runSim cfgN [rowA]).length = 1
    ∧ (runSim cfgN [rowA]).map (fun r => r.Total_Production) = [0] :=
  ⟨by decide, by decide, by decide, by decide, by decide, by decide, by decide, rfl, rfl⟩

/-- C9: Scenario A — capacity 150000, truck size 10000, safety stock 5000,
starting inventory at safety stock, demand (40000, 10000, 30000, 10000):
requirements equal demand, truck totals are 50000 and 40000, shipments
equal demand for all four keys, and the fulfillment percentage is 100. -/
theorem C9_scenario_a :
    (∀ k, required cfgA rowA invA k = demandOf rowA k)
    ∧ north_truck_total cfgA rowA invA = 50000
    ∧ south_truck_total cfgA rowA invA = 40000
    ∧ (∀ k, (simulate_week cfgA rowA invA).1 k = demandOf rowA k)
    ∧ (simulate_week cfgA rowA invA).2.2.2.1 = 100 := by
  have hallocNR : alloc cfgA rowA invA .North_Regular = 40000 := by decide
  have hallocND : alloc cfgA rowA invA .North_Diet = 10000 := by decide
  have hallocSR : alloc cfgA rowA invA .South_Regular = 30000 := by decide
  have hallocSD : alloc cfgA rowA invA .South_Diet = 10000 := by decide
  have hntt : north_truck_total cfgA rowA invA = 50000 := by decide
  have hstt : south_truck_total cfgA rowA invA = 40000 := by decide
  have hsplitN : split_into_skus 40000 10000 50000 = (40000, 10000) := by
    norm_num [split_into_skus, regShare, roundHalfEven]
    exact ⟨by decide, by decide⟩
  have hsplitS : split_into_skus 30000 10000 40000 = (30000, 10000) := by
    norm_num [split_into_skus, regShare, roundHalfEven]
    exact ⟨by decide, by decide⟩
  have hship : ∀ k, (simulate_week cfgA rowA invA).1 k = demandOf rowA k := by
    intro k
    rw [simulate_week_fst]
    cases k
    · rw [alloc_truck_NR, hallocNR, hallocND, hntt, hsplitN]; decide
    · rw [alloc_truck_ND, hallocNR, hallocND, hntt, hsplitN]; decide
    · rw [alloc_truck_SR, hallocSR, hallocSD, hstt, hsplitS]; decide
    · rw [alloc_truck_SD, hallocSR, hallocSD, hstt, hsplitS]; decide
  have hpct : (simulate_week cfgA rowA invA).2.2.2.1 = 100 := by
    rw [simulate_week_pct]
    have hful : ∀ k, fulfilled cfgA rowA invA k = demandOf rowA k := by
      intro k
      show min (demandOf rowA k) (alloc_truck cfgA rowA invA k) = demandOf rowA k
      rw [← simulate_week_fst, hship k, min_self]
    have h1 : sumKeys (fulfilled cfgA rowA invA) = 90000 := by
      unfold sumKeys
      rw [hful .North_Regular, hful .North_Diet, hful .South_Regular, hful .South_Diet]
      decide
    have h2 : sumKeys (demandOf rowA) = 90000 := by decide
    unfold fulfillment_pct
    rw [h1, h2]
    norm_num
  exact ⟨by decide, hntt, hstt, hship, hpct⟩

/-- C10: whenever `TRUCK_SIZE` is a positive multiple of 1000 (the default
10000 included), the Diet shipment of each DC is also a non-negative
multiple of 1000, so the off-grid Diet asymmetry cannot occur. -/
theorem C10_diet_on_grid_when_truck_multiple_of_1000 (cfg : Config) (row : Row)
    (inv : InvState) (hcap : 0 < cfg.PLANT_CAPACITY) (htr : 0 < cfg.TRUCK_SIZE)
    (hdvd : (1000 : ℤ) ∣ cfg.TRUCK_SIZE) :
    ((1000 : ℤ) ∣ (simulate_week cfg row inv).1 .North_Diet
      ∧ 0 ≤ (simulate_week cfg row inv).1 .North_Diet)
    ∧ ((1000 : ℤ) ∣ (simulate_week cfg row inv).1 .South_Diet
      ∧ 0 ≤ (simulate_week cfg row inv).1 .South_Diet) := by
  have hnt : (1000 : ℤ) ∣ north_truck_total cfg row inv := by
    unfold north_truck_total
    exact dvd_trans hdvd (dvd_mul_left _ _)
  have hst : (1000 : ℤ) ∣ south_truck_total cfg row inv := by
    unfold south_truck_total
    exact dvd_trans hdvd (dvd_mul_left _ _)
  refine ⟨⟨?_, ?_⟩, ⟨?_, ?_⟩⟩
  · rw [simulate_week_fst, alloc_truck_ND, split_snd_eq]
    exact dvd_sub hnt (split_fst_dvd _ _ _)
  · rw [simulate_week_fst, alloc_truck_ND]
    exact split_snd_nonneg _ _ _
      (north_truck_total_nonneg cfg row inv (le_of_lt hcap) (le_of_lt htr))
  · rw [simulate_week_fst, alloc_truck_SD, split_snd_eq]
    exact dvd_sub hst (split_fst_dvd _ _ _)
  · rw [simulate_week_fst, alloc_truck_SD]
    exact split_snd_nonneg _ _ _
      (south_truck_total_nonneg cfg row inv (le_of_lt hcap) (le_of_lt htr))

/-- Witness for C10 at the default configuration (truck size 10000). -/
theorem C10_witness :
    (0 : ℤ) < cfgA.PLANT_CAPACITY ∧ (0 : ℤ) < cfgA.TRUCK_SIZE
    ∧ (1000 : ℤ) ∣ cfgA.TRUCK_SIZE
    ∧ (1000 : ℤ) ∣ (simulate_week cfgA rowA invA).1 .North_Diet :=
  ⟨by decide, by decide, by decide,
   (C10_diet_on_grid_when_truck_multiple_of_1000 cfgA rowA invA (by decide) (by decide)
     (by decide)).1.1⟩
